import Mathlib

/-!
# Attestation server: evidence classification, verdicts, credentials

A shallow embedding of the Go sources `verify.go`, `auth.go`, `apikeys.go`
and `main.go`.

Conventions of the embedding:

* a Go `[]byte` is a `GoSlice`: the backing array from the first element of the
  slice up to its capacity, together with the length; an operation that Go
  checks at run time (slicing, indexing) returns `none` where Go panics;
* a handler is a function to the list of effects it performs, in order
  (`Event`): responses written, collaborators called, log lines, and a final
  `Event.panic` when the goroutine panics;
* a Go string that was decoded from JSON or is a literal is a Lean `String`
  (Unicode text); where arbitrary bytes can arrive, as in the arguments of
  `IssueAPIKey` that `cliIssue` takes from `os.Args`, it is a `GoString`, and
  `jsonText` gives the text encoding/json makes of it;
* collaborators outside the repository (JSON and base64 decoding, the TDX
  library, the file system, the external `check` tool, the JWT library and
  Ed25519) are parameters.
-/

namespace AttestationServer

deriving instance DecidableEq for Except

/-! ## Go run-time model -/

/-- One octet. -/
abbrev Byte := Fin 256

/-- A Go byte slice: `buf` is the backing array seen from the slice's first
element (so `buf.length` is the capacity) and `len` is the slice length. -/
structure GoSlice where
  buf : List Byte
  len : Nat
  hlen : len ≤ buf.length
  deriving DecidableEq

namespace GoSlice

/-- Capacity `cap(s)`. -/
def cap (s : GoSlice) : Nat := s.buf.length

/-- The elements `s[0], ..., s[len(s)-1]`. -/
def bytes (s : GoSlice) : List Byte := s.buf.take s.len

/-- A slice whose capacity equals its length, as `make([]byte, n)` or a
literal gives. -/
def ofList (l : List Byte) : GoSlice := ⟨l, l.length, Nat.le_refl _⟩

/-- Slice expression `s[:hi]`: Go checks `hi ≤ cap(s)` and panics otherwise. -/
def sliceTo (s : GoSlice) (hi : Nat) : Option GoSlice :=
  if h : hi ≤ s.buf.length then some ⟨s.buf, hi, h⟩ else none

/-- Index expression `s[i]`: Go checks `i < len(s)` and panics otherwise. -/
def index (s : GoSlice) (i : Nat) : Option Byte :=
  if i < s.len then s.buf.get? i else none

end GoSlice

/-- Go's `binary.LittleEndian.Uint16(b)`: `_ = b[1]` (bounds check), then
`uint16(b[0]) | uint16(b[1])<<8`. -/
def Uint16 (b : GoSlice) : Option Nat :=
  match b.index 1, b.index 0 with
  | some b1, some b0 => some ((b0.val ||| (b1.val <<< 8)) % 65536)
  | _, _ => none

/-! ## verify.go: classification -/

/-- The function `quoteType` of verify.go: reads the little-endian uint16 version at
offset 0. `none` would be a run-time panic. -/
def quoteType (raw : GoSlice) : Option String :=
  if raw.len < 4 then
    some "unknown"
  else
    match raw.sliceTo 2 with
    | none => none
    | some hd =>
      match Uint16 hd with
      | none => none
      | some version =>
        if version = 3 then some "sgx"
        else if version = 4 then some "tdx"
        else some "unknown"

/-- The value `raw[0] + 256*raw[1]` of the first two bytes of the slice
(missing bytes count as 0). -/
def versionField (raw : GoSlice) : Nat :=
  (raw.bytes.getD 0 0).val + 256 * (raw.bytes.getD 1 0).val

/-! ## verify.go: responses, effects, collaborators -/

/-- The struct `VerifyResponse` of verify.go. -/
structure VerifyResponse where
  Success : Bool := false
  Status : String := ""
  TcbDate : String := ""
  AdvisoryIDs : List String := []
  Message : String := ""
  Error : String := ""
  deriving DecidableEq, Repr

/-- The struct `VerifyRequest` of verify.go. -/
structure VerifyRequest where
  Quote : String := ""
  deriving DecidableEq, Repr

/-- The struct `IssueRequest` of apikeys.go; `DaysValid` is a Go `int` (64 bits). -/
structure IssueRequest where
  Subject : String := ""
  Scope : String := ""
  DaysValid : Int := 0
  deriving DecidableEq, Repr

/-- The struct `IssueResponse` of apikeys.go. -/
structure IssueResponse where
  Token : String
  Subject : String
  Scope : String
  Expires : String
  deriving DecidableEq, Repr

/-- The part of `*http.Request` the handlers read: the method, the value of
`r.Header.Get("Authorization")` and the body. -/
structure Request where
  Method : String
  Authorization : String := ""
  Body : String := ""
  deriving DecidableEq, Repr

/-- Calls that leave the repository, and the call of the wrapped handler. -/
inductive Callee where
  | QuoteToProto
  | TdxQuote
  | CreateTemp
  | Write (name : String)
  | Close (name : String)
  | Remove (name : String)
  | CombinedOutput (name : String)
  | next
  deriving DecidableEq, Repr

/-- One effect of a handler run. -/
inductive Event where
  /-- Go's `sendJSON(w, status, resp)` -/
  | sendJSON (status : Nat) (resp : VerifyResponse)
  /-- Go's `http.Error(w, error, code)`: a plain-text response -/
  | httpError (error : String) (code : Nat)
  /-- the status 200 JSON encoding of an `IssueResponse` in `issueHandler` -/
  | issued (status : Nat) (resp : IssueResponse)
  /-- Go's `log.Printf` -/
  | log (line : String)
  /-- a call of a collaborator -/
  | call (c : Callee)
  /-- a run-time panic, which ends the handler -/
  | panic (msg : String)
  deriving DecidableEq, Repr

/-- Whether an event writes an HTTP response. -/
def Event.isResponse : Event → Bool
  | .sendJSON _ _ => true
  | .httpError _ _ => true
  | .issued _ _ => true
  | _ => false

/-- Whether an event calls one of the two evidence verifiers' collaborators
(the TDX library, the file system or the external tool). -/
def Event.isVerifierCall : Event → Bool
  | .call .next => false
  | .call _ => true
  | _ => false

/-- The collaborators of verify.go and apikeys.go outside the repository.
`Q` is the type of decoded TDX quotes (`*pb.QuoteV4`). An `Option String`
result is a Go `error`: `none` is `nil`. -/
structure Collaborators (Q : Type) where
  /-- Go's `json.NewDecoder(r.Body).Decode(&req)` for a `VerifyRequest` -/
  decodeVerifyRequest : String → Except String VerifyRequest
  /-- Go's `json.NewDecoder(r.Body).Decode(&req)` for an `IssueRequest` -/
  decodeIssueRequest : String → Except String IssueRequest
  /-- Go's `base64.StdEncoding.DecodeString` -/
  base64Decode : String → Except String GoSlice
  /-- Go's `tdxAbi.QuoteToProto` -/
  quoteToProto : GoSlice → Except String Q
  /-- Go's `tdxCheck.TdxQuote(quote, &tdxCheck.Options{})` -/
  tdxQuote : Q → Option String
  /-- Go's `os.CreateTemp("", "quote-*.dat")`: the name of the new file -/
  createTemp : Except String String
  /-- Go's `tmpFile.Write(quoteRaw)` -/
  write : String → List Byte → Option String
  /-- Go's `exec.Command(check, "-in", name).CombinedOutput()`, given the bytes
  written to the file: the output and the error -/
  combinedOutput : String → List Byte → String × Option String
  /-- Go's `t.Format(time.RFC3339)` of a UTC instant given in nanoseconds -/
  formatRFC3339 : Int → String

/-- The function `sendJSON` of verify.go: one JSON response with the given status. -/
def sendJSON (status : Nat) (resp : VerifyResponse) : List Event :=
  [Event.sendJSON status resp]

/-- The function `verifyTDX` of verify.go. -/
def verifyTDX {Q : Type} (x : Collaborators Q) (quoteRaw : GoSlice) : List Event :=
  Event.call .QuoteToProto ::
  match x.quoteToProto quoteRaw with
  | .error err =>
    sendJSON 400 { Success := false, Error := "Failed to parse TDX quote: " ++ err }
  | .ok quote =>
    Event.call .TdxQuote ::
    match x.tdxQuote quote with
    | some err =>
      sendJSON 200 { Success := false, Status := "VERIFICATION_FAILED",
                     Error := "TDX quote verification failed: " ++ err }
    | none =>
      sendJSON 200 { Success := true, Status := "OK",
                     Message := "TDX quote verified (signature + certificate chain)" }

/-- The function `verifySGX` of verify.go. The deferred `os.Remove` runs last on every
path after the file was created. -/
def verifySGX {Q : Type} (x : Collaborators Q) (quoteRaw : GoSlice) : List Event :=
  Event.call .CreateTemp ::
  match x.createTemp with
  | .error _ =>
    sendJSON 500 { Success := false, Error := "Internal server error" }
  | .ok name =>
    (Event.call (.Write name) ::
     match x.write name quoteRaw.bytes with
     | some _ =>
       Event.call (.Close name) ::
       sendJSON 500 { Success := false, Error := "Failed to write quote" }
     | none =>
       Event.call (.Close name) :: Event.call (.CombinedOutput name) ::
       match x.combinedOutput name quoteRaw.bytes with
       | (output, some err) =>
         Event.log ("SGX verification tool failed: " ++ err ++ ", Output: " ++ output) ::
         sendJSON 400 { Success := false, Status := "VERIFICATION_FAILED",
                        Error := "SGX verification failed: " ++ output }
       | (_, none) =>
         sendJSON 200 { Success := true, Status := "OK",
                        Message := "SGX quote verified via DCAP" })
    ++ [Event.call (.Remove name)]

/-- The function `verifyHandler` of verify.go. -/
def verifyHandler {Q : Type} (x : Collaborators Q) (r : Request) : List Event :=
  if r.Method ≠ "POST" then
    [Event.httpError "Only POST allowed" 405]
  else
    match x.decodeVerifyRequest r.Body with
    | .error _ => sendJSON 400 { Success := false, Error := "Invalid JSON body" }
    | .ok req =>
      if req.Quote = "" then
        sendJSON 400 { Success := false, Error := "Missing 'quote' field" }
      else
        match x.base64Decode req.Quote with
        | .error _ =>
          sendJSON 400 { Success := false, Error := "Invalid base64 in 'quote' field" }
        | .ok quoteRaw =>
          match quoteType quoteRaw with
          | none => [Event.panic "runtime error: slice bounds out of range"]
          | some qType =>
            Event.log ("Received " ++ qType ++ " quote (" ++ toString quoteRaw.len ++ " bytes)") ::
            if qType = "tdx" then verifyTDX x quoteRaw
            else if qType = "sgx" then verifySGX x quoteRaw
            else
              match quoteRaw.sliceTo 2 with
              | none => [Event.panic "runtime error: slice bounds out of range [:2]"]
              | some hd =>
                match Uint16 hd with
                | none => [Event.panic "runtime error: index out of range [1]"]
                | some version =>
                  sendJSON 400 { Success := false,
                                 Error := "Unsupported quote format (version " ++
                                          toString version ++ ")" }

/-! ## Go standard library: `strings`, `unicode`, `time` -/

/-- Go's `unicode.IsSpace`: the Latin-1 cases and the `White_Space` range table. -/
def IsSpace (c : Char) : Bool :=
  let n := c.toNat
  n == 0x09 || n == 0x0A || n == 0x0B || n == 0x0C || n == 0x0D || n == 0x20 ||
  n == 0x85 || n == 0xA0 || n == 0x1680 || (0x2000 ≤ n && n ≤ 0x200A) ||
  n == 0x2028 || n == 0x2029 || n == 0x202F || n == 0x205F || n == 0x3000

/-- Go's `strings.TrimSpace`: leading and trailing white space removed. -/
def TrimSpace (s : String) : String :=
  ⟨(s.data.dropWhile IsSpace).rdropWhile IsSpace⟩

/-- Go's `strings.HasPrefix`. -/
def HasPrefix (s pre : String) : Bool :=
  pre.data.isPrefixOf s.data

/-- Go's `strings.TrimPrefix`. -/
def TrimPrefix (s pre : String) : String :=
  if HasPrefix s pre then ⟨s.data.drop pre.data.length⟩ else s

/-- Splitting a character sequence at every occurrence of `sep`; an input
without `sep` gives one element, the input itself. -/
def splitChars (sep : Char) : List Char → List (List Char)
  | [] => [[]]
  | c :: cs =>
    if c = sep then [] :: splitChars sep cs
    else
      match splitChars sep cs with
      | [] => [[c]]
      | hd :: tl => (c :: hd) :: tl

/-- Go's `strings.Split(s, sep)` for a one-character separator. -/
def Split (s : String) (sep : Char) : List String :=
  (splitChars sep s.data).map String.mk

/-- A `time.Time` instant as nanoseconds since the Unix epoch. -/
abbrev Time := Int

/-- A `time.Duration`: an int64 count of nanoseconds. -/
abbrev Duration := Int

/-- Go's `time.Second`. -/
def Second : Duration := 1000000000

/-- Go's `time.Hour`. -/
def Hour : Duration := 3600 * Second

/-- The value an int64 holds after an arithmetic result `x` wraps around. -/
def wrapInt64 (x : Int) : Int := (x + 2 ^ 63) % 2 ^ 64 - 2 ^ 63

/-- Go's `t.Truncate(time.Second)`: rounding down to a whole second. -/
def truncateSecond (t : Time) : Time := t / Second * Second

/-! ## The JWT library (github.com/golang-jwt/jwt/v5) and Ed25519 -/

/-- Go's `jwt.NewNumericDate(t)`: `t.Truncate(jwt.TimePrecision)`, the precision
being one second. -/
def NewNumericDate (t : Time) : Time := truncateSecond t

/-- Go's `jwt.RegisteredClaims`; the three dates are `*jwt.NumericDate`, `none`
being the nil pointer of an absent claim. -/
structure RegisteredClaims where
  Issuer : String := ""
  Subject : String := ""
  Audience : List String := []
  ExpiresAt : Option Time := none
  NotBefore : Option Time := none
  IssuedAt : Option Time := none
  ID : String := ""
  deriving DecidableEq, Repr

/-- The struct `APIKeyClaims` of auth.go. -/
structure APIKeyClaims extends RegisteredClaims where
  Scope : String := ""
  deriving DecidableEq, Repr

/-- The Go types of the signing methods the library registers. -/
inductive SigningMethod where
  | HMAC (alg : String)
  | RSA (alg : String)
  | RSAPSS (alg : String)
  | ECDSA (alg : String)
  | Ed25519
  | none
  deriving DecidableEq, Repr

/-- Go's `Alg()` of a signing method. -/
def SigningMethod.Alg : SigningMethod → String
  | .HMAC a => a
  | .RSA a => a
  | .RSAPSS a => a
  | .ECDSA a => a
  | .Ed25519 => "EdDSA"
  | .none => "none"

/-- Go's `jwt.GetSigningMethod`: the registry the library fills at start-up. -/
def GetSigningMethod (alg : String) : Option SigningMethod :=
  if alg = "HS256" ∨ alg = "HS384" ∨ alg = "HS512" then some (.HMAC alg)
  else if alg = "RS256" ∨ alg = "RS384" ∨ alg = "RS512" then some (.RSA alg)
  else if alg = "PS256" ∨ alg = "PS384" ∨ alg = "PS512" then some (.RSAPSS alg)
  else if alg = "ES256" ∨ alg = "ES384" ∨ alg = "ES512" then some (.ECDSA alg)
  else if alg = "EdDSA" then some .Ed25519
  else if alg = "none" then some .none
  else Option.none

/-- Go's `jwt.Token`, without the raw string. -/
structure Token where
  Method : SigningMethod
  alg : String
  Claims : APIKeyClaims
  Signature : List Byte := []
  Valid : Bool := false
  deriving DecidableEq, Repr

/-- The decoded segments of a compact serialisation `header.payload.signature`:
the header's `alg` (`none` when absent or not a string), the claims, the
signing string `header.payload`, and the signature bytes (`none` when the
third segment is not base64url). -/
structure Compact where
  alg : Option String
  claims : APIKeyClaims
  signingString : String
  signature : Option (List Byte)
  deriving DecidableEq, Repr

/-- The parts of the JWT library and of Ed25519 that are not modelled further:
the wire format and the signature scheme. `W` is the type of token strings. -/
structure JwtLib (W : Type) where
  /-- Go's `Token.SigningString`: base64url(header JSON) + "." + base64url(claims JSON) -/
  signingString : String → APIKeyClaims → String
  /-- the signing string with "." and the base64url signature appended -/
  compact : String → APIKeyClaims → List Byte → W
  /-- segment splitting and decoding in `Parser.ParseUnverified` -/
  split : W → Except String Compact
  /-- Go's `SigningMethod.Sign(signingString, key)` -/
  sign : SigningMethod → String → List Byte → Except String (List Byte)
  /-- Go's `SigningMethod.Verify(signingString, sig, key)`: the error, `none` being nil -/
  verify : SigningMethod → String → List Byte → List Byte → Option String

/-- The package variables `signingKey` and `verifyingKey` of main.go. -/
structure KeyMaterial where
  signingKey : List Byte
  verifyingKey : List Byte
  deriving DecidableEq, Repr

/-- Go's `Validator.Validate` with the default options: `exp` and `nbf` are checked
when present (`now < exp`, `nbf ≤ now`); nothing else is. -/
def validateClaims (now : Time) (c : RegisteredClaims) : Option String :=
  let expired : Bool := match c.ExpiresAt with
    | some exp => !decide (now < exp)
    | Option.none => false
  let early : Bool := match c.NotBefore with
    | some nbf => !decide (nbf ≤ now)
    | Option.none => false
  if expired && early then some "token is expired, token is not valid yet"
  else if expired then some "token is expired"
  else if early then some "token is not valid yet"
  else Option.none

/-- Go's `Parser.ParseWithClaims` with the default parser. -/
def ParseWithClaims {W : Type} (lib : JwtLib W) (now : Time) (tokenString : W)
    (keyFunc : Token → Except String (List Byte)) : Except String Token :=
  match lib.split tokenString with
  | .error e => .error ("token is malformed: " ++ e)
  | .ok c =>
    match c.alg with
    | Option.none => .error "token is unverifiable: signing method (alg) is unspecified"
    | some alg =>
      match GetSigningMethod alg with
      | Option.none => .error "token is unverifiable: signing method (alg) is unavailable"
      | some method =>
        match c.signature with
        | Option.none => .error "token is malformed: could not base64 decode signature"
        | some sig =>
          let token : Token :=
            { Method := method, alg := alg, Claims := c.claims, Signature := sig }
          match keyFunc token with
          | .error e =>
            .error ("token is unverifiable: error while executing keyfunc: " ++ e)
          | .ok key =>
            match lib.verify method c.signingString sig key with
            | some e => .error ("token signature is invalid: " ++ e)
            | Option.none =>
              match validateClaims now c.claims.toRegisteredClaims with
              | some e => .error ("token has invalid claims: " ++ e)
              | Option.none => .ok { token with Valid := true }

/-- Go's `Token.SignedString(key)` of a token made by `jwt.NewWithClaims`. -/
def SignedString {W : Type} (lib : JwtLib W) (method : SigningMethod)
    (claims : APIKeyClaims) (key : List Byte) : Except String W :=
  match lib.sign method (lib.signingString method.Alg claims) key with
  | .error e => .error e
  | .ok sig => .ok (lib.compact method.Alg claims sig)

/-! ## auth.go -/

/-- The key-lookup callback that `ValidateAPIKey` hands to the parser. -/
def keyFunc (keys : KeyMaterial) (t : Token) : Except String (List Byte) :=
  match t.Method with
  | .Ed25519 => .ok keys.verifyingKey
  | _ => .error ("unexpected signing method: " ++ t.alg)

/-- The function `ValidateAPIKey` of auth.go, `now` being the validator's clock reading. -/
def ValidateAPIKey {W : Type} (lib : JwtLib W) (keys : KeyMaterial) (now : Time)
    (tokenStr : W) : Except String APIKeyClaims :=
  match ParseWithClaims lib now tokenStr (keyFunc keys) with
  | .error err => .error err
  | .ok token =>
    if !token.Valid then .error "invalid token"
    else .ok token.Claims

/-- The loop over `scopes` in `requireAuth`, with its `found` flag and `break`. -/
def scopeFound (requiredScope : String) : List String → Bool
  | [] => false
  | s :: rest =>
    if TrimSpace s = requiredScope then true else scopeFound requiredScope rest

/-- The scope check of `requireAuth`: `true` when the request may proceed. -/
def scopeCheck (requiredScope scope : String) : Bool :=
  if requiredScope ≠ "" then scopeFound requiredScope (Split scope ',')
  else true

/-- The handler `requireAuth(next, requiredScope)` of auth.go applied to a request.
`validate` stands for `ValidateAPIKey`, `fmtTime` for
`Time.Format(time.RFC3339)`. The arguments of the final `log.Printf` are
evaluated before the call, and `claims.ExpiresAt.Time` dereferences the
`ExpiresAt` pointer. -/
def requireAuth (validate : String → Except String APIKeyClaims)
    (fmtTime : Int → String) (next : Request → List Event)
    (requiredScope : String) (r : Request) : List Event :=
  let auth := r.Authorization
  if auth = "" then
    sendJSON 401 { Success := false, Error := "Missing Authorization header" }
  else if !HasPrefix auth "Bearer " then
    sendJSON 401 { Success := false, Error := "Authorization must use Bearer scheme" }
  else
    let tokenStr := TrimPrefix auth "Bearer "
    match validate tokenStr with
    | .error err =>
      sendJSON 401 { Success := false, Error := "Invalid API key: " ++ err }
    | .ok claims =>
      if !scopeCheck requiredScope claims.Scope then
        sendJSON 403 { Success := false, Error := "Insufficient scope" }
      else
        match claims.ExpiresAt with
        | Option.none =>
          [Event.panic "runtime error: invalid memory address or nil pointer dereference"]
        | some exp =>
          Event.log ("Authenticated request from " ++ claims.Subject.quote ++
                     " (scope=" ++ claims.Scope ++ ", exp=" ++ fmtTime exp ++ ")") ::
          Event.call .next :: next r

/-! ## apikeys.go -/

/-- The claims `IssueAPIKey` builds at clock reading `now`. -/
def issuedClaims (now : Time) (subject scope : String) (validity : Duration) :
    APIKeyClaims :=
  { Issuer := "privasys-attestation",
    Subject := subject,
    IssuedAt := some (NewNumericDate now),
    ExpiresAt := some (NewNumericDate (now + validity)),
    ID := toString now,
    Scope := scope }

/-- The function `IssueAPIKey` of apikeys.go, `now` being its clock reading. -/
def IssueAPIKey {W : Type} (lib : JwtLib W) (keys : KeyMaterial) (now : Time)
    (subject scope : String) (validity : Duration) : Except String W :=
  SignedString lib .Ed25519 (issuedClaims now subject scope validity) keys.signingKey

/-- The expression `time.Duration(days) * 24 * time.Hour`: int64 arithmetic,
which wraps around. -/
def validityOfDays (days : Int) : Duration :=
  wrapInt64 (wrapInt64 (days * 24) * Hour)

/-- The function `issueHandler` of apikeys.go; `now` is the clock reading inside
`IssueAPIKey`, `now2` the later one for the `expires` field. -/
def issueHandler {Q : Type} (x : Collaborators Q) (lib : JwtLib String)
    (keys : KeyMaterial) (now now2 : Time) (r : Request) : List Event :=
  if r.Method ≠ "POST" then
    [Event.httpError "Only POST allowed" 405]
  else
    match x.decodeIssueRequest r.Body with
    | .error _ => sendJSON 400 { Success := false, Error := "Invalid JSON body" }
    | .ok req =>
      if req.Subject = "" then
        sendJSON 400 { Success := false, Error := "subject is required" }
      else
        let daysValid := if req.DaysValid ≤ 0 then 30 else req.DaysValid
        let scope := if req.Scope = "" then "verify" else req.Scope
        let validity := validityOfDays daysValid
        match IssueAPIKey lib keys now req.Subject scope validity with
        | .error _ => sendJSON 500 { Success := false, Error := "Failed to issue token" }
        | .ok token =>
          [Event.issued 200 { Token := token, Subject := req.Subject, Scope := scope,
                              Expires := x.formatRFC3339 (now2 + validity) }]

/-! ## Go strings as byte sequences and the text encoding/json carries -/

/-- A Go `string`: an arbitrary byte sequence, not necessarily valid UTF-8. -/
abbrev GoString := List Byte

/-- The byte with value `n mod 256`. -/
def byte (n : Nat) : Byte := ⟨n % 256, Nat.mod_lt _ (by decide)⟩

/-- The UTF-8 encoding of one Unicode scalar value. -/
def utf8EncodeChar (c : Char) : List Byte :=
  let n := c.toNat
  if n < 0x80 then [byte n]
  else if n < 0x800 then [byte (0xC0 + n / 64), byte (0x80 + n % 64)]
  else if n < 0x10000 then
    [byte (0xE0 + n / 4096), byte (0x80 + n / 64 % 64), byte (0x80 + n % 64)]
  else
    [byte (0xF0 + n / 262144), byte (0x80 + n / 4096 % 64),
     byte (0x80 + n / 64 % 64), byte (0x80 + n % 64)]

/-- The UTF-8 encoding of a sequence of scalar values. -/
def utf8EncodeChars : List Char → GoString
  | [] => []
  | c :: cs => utf8EncodeChar c ++ utf8EncodeChars cs

/-- The Go string that holds the Unicode string `s`: its UTF-8 encoding. The
Go strings of this form are exactly the valid UTF-8 ones. -/
def utf8Encode (s : String) : GoString := utf8EncodeChars s.data

/-- A continuation byte `10xxxxxx`. -/
def isCont (b : Byte) : Bool := 0x80 ≤ b.val && b.val ≤ 0xBF

/-- Go's `utf8.DecodeRune` on a non-empty input with a valid leading encoding:
the rune and the remaining bytes. `none` stands for the result
`(RuneError, 1)` of an invalid or truncated encoding (and for empty input).
The second byte's range depends on the first, as in Go's accept ranges:
no overlong forms, no surrogates, nothing above U+10FFFF. -/
def DecodeRune : List Byte → Option (Char × List Byte)
  | [] => none
  | b0 :: rest =>
    if b0.val < 0x80 then some (Char.ofNat b0.val, rest)
    else if 0xC2 ≤ b0.val ∧ b0.val ≤ 0xDF then
      match rest with
      | b1 :: r =>
        if isCont b1 then
          some (Char.ofNat ((b0.val - 0xC0) * 64 + (b1.val - 0x80)), r)
        else none
      | _ => none
    else if 0xE0 ≤ b0.val ∧ b0.val ≤ 0xEF then
      match rest with
      | b1 :: b2 :: r =>
        if (if b0.val = 0xE0 then 0xA0 else 0x80) ≤ b1.val ∧
            b1.val ≤ (if b0.val = 0xED then 0x9F else 0xBF) ∧ isCont b2 then
          some (Char.ofNat ((b0.val - 0xE0) * 4096 + (b1.val - 0x80) * 64 +
                            (b2.val - 0x80)), r)
        else none
      | _ => none
    else if 0xF0 ≤ b0.val ∧ b0.val ≤ 0xF4 then
      match rest with
      | b1 :: b2 :: b3 :: r =>
        if (if b0.val = 0xF0 then 0x90 else 0x80) ≤ b1.val ∧
            b1.val ≤ (if b0.val = 0xF4 then 0x8F else 0xBF) ∧ isCont b2 ∧ isCont b3 then
          some (Char.ofNat ((b0.val - 0xF0) * 262144 + (b1.val - 0x80) * 4096 +
                            (b2.val - 0x80) * 64 + (b3.val - 0x80)), r)
        else none
      | _ => none
    else none

/-- The runes encoding/json writes for a Go string, read with `fuel` steps:
each valid encoding gives its rune, each byte that starts no valid encoding
gives U+FFFD and is skipped alone. -/
def jsonRunes : Nat → List Byte → List Char
  | 0, _ => []
  | _ + 1, [] => []
  | fuel + 1, b :: rest =>
    match DecodeRune (b :: rest) with
    | some (c, rest2) => c :: jsonRunes fuel rest2
    | none => Char.ofNat 0xFFFD :: jsonRunes fuel rest

/-- The text a Go string has after encoding/json has marshalled it and
unmarshalled it again: valid UTF-8 is kept, every invalid byte becomes
U+FFFD. -/
def jsonText (s : GoString) : String := ⟨jsonRunes s.length s⟩

/-- The claims `IssueAPIKey` builds in memory, their strings being Go strings:
`Issuer`, `Subject`, `IssuedAt`, `ExpiresAt`, `ID` of `jwt.RegisteredClaims`
and `Scope`. -/
structure GoClaims where
  Issuer : GoString
  Subject : GoString
  IssuedAt : Option Time
  ExpiresAt : Option Time
  ID : GoString
  Scope : GoString
  deriving DecidableEq, Repr

/-- The claims as the JSON payload carries them: `SignedString` marshals the
claims with encoding/json, which writes U+FFFD for every byte of a string that
is not valid UTF-8. -/
def GoClaims.onWire (c : GoClaims) : APIKeyClaims :=
  { Issuer := jsonText c.Issuer,
    Subject := jsonText c.Subject,
    IssuedAt := c.IssuedAt,
    ExpiresAt := c.ExpiresAt,
    ID := jsonText c.ID,
    Scope := jsonText c.Scope }

/-- The claims `IssueAPIKey` builds at clock reading `now` from Go strings
that need not be valid UTF-8. -/
def OnBytes.issuedClaims (now : Time) (subject scope : GoString)
    (validity : Duration) : GoClaims :=
  { Issuer := utf8Encode "privasys-attestation",
    Subject := subject,
    IssuedAt := some (NewNumericDate now),
    ExpiresAt := some (NewNumericDate (now + validity)),
    ID := utf8Encode (toString now),
    Scope := scope }

/-- The function `IssueAPIKey` of apikeys.go on Go strings that need not be
valid UTF-8 (`cliIssue` passes `os.Args` elements), `now` being its clock
reading. -/
def OnBytes.IssueAPIKey {W : Type} (lib : JwtLib W) (keys : KeyMaterial) (now : Time)
    (subject scope : GoString) (validity : Duration) : Except String W :=
  SignedString lib .Ed25519
    (OnBytes.issuedClaims now subject scope validity).onWire keys.signingKey

/-! ## Trace predicates -/

/-- A run answers with a positive verdict: some JSON response has
`success = true`. -/
def answersSuccess (tr : List Event) : Prop :=
  ∃ st resp, Event.sendJSON st resp ∈ tr ∧ resp.Success = true

/-- The uint16 that `binary.LittleEndian.Uint16(raw[:2])` reads: it is taken
from the backing array, so for a slice shorter than 2 bytes with capacity at
least 2 it includes bytes beyond the slice's length. -/
def backingVersion (raw : GoSlice) : Nat :=
  (raw.buf.getD 0 0).val + 256 * (raw.buf.getD 1 0).val

/-- The conditions under which the verifier of the evidence's family accepts
the decoded evidence. -/
def verifierAccepts {Q : Type} (x : Collaborators Q) (raw : GoSlice) : Prop :=
  (quoteType raw = some "tdx" ∧
    ∃ q, x.quoteToProto raw = .ok q ∧ x.tdxQuote q = none) ∨
  (quoteType raw = some "sgx" ∧
    ∃ name, x.createTemp = .ok name ∧ x.write name raw.bytes = none ∧
      (x.combinedOutput name raw.bytes).2 = none)

/-- The request passes every check of `requireAuth`. -/
def authPasses (validate : String → Except String APIKeyClaims)
    (requiredScope : String) (r : Request) : Prop :=
  r.Authorization ≠ "" ∧ HasPrefix r.Authorization "Bearer " = true ∧
  ∃ claims, validate (TrimPrefix r.Authorization "Bearer ") = .ok claims ∧
    scopeCheck requiredScope claims.Scope = true

/-- The wire format returns what was serialised. The claims handed to it hold
Unicode text, that is, what encoding/json makes of the Go strings (see
`GoClaims.onWire`: bytes that are not valid UTF-8 have already become U+FFFD),
and the law is asked only of claims whose dates are whole seconds, the
precision of a JSON numeric date. -/
def JwtLib.Lawful {W : Type} (lib : JwtLib W) : Prop :=
  ∀ (alg : String) (claims : APIKeyClaims) (sig : List Byte),
    (∀ t, (claims.ExpiresAt = some t ∨ claims.NotBefore = some t ∨
        claims.IssuedAt = some t) → t % Second = 0) →
    lib.split (lib.compact alg claims sig) =
      .ok { alg := some alg, claims := claims,
            signingString := lib.signingString alg claims, signature := some sig }

/-- The signing key and the verifying key are a matching Ed25519 pair: signing
succeeds and the signature verifies. -/
def MatchingPair {W : Type} (lib : JwtLib W) (keys : KeyMaterial) : Prop :=
  ∀ m : String, ∃ sig, lib.sign .Ed25519 m keys.signingKey = .ok sig ∧
    lib.verify .Ed25519 m sig keys.verifyingKey = Option.none

/-! ## Instances for worked examples -/

/-- Collaborators whose TDX decoder fails on every input; the request body is
taken as the quote and every quote decodes to the four bytes 04 00 00 00. -/
def demoCollaborators : Collaborators (List Byte) where
  decodeVerifyRequest := fun body => .ok { Quote := body }
  decodeIssueRequest := fun body => .ok { Subject := body }
  base64Decode := fun _ => .ok ⟨[4, 0, 0, 0, 0, 0], 4, by decide⟩
  quoteToProto := fun _ => .error "unable to determine quote format"
  tdxQuote := fun _ => none
  createTemp := .ok "/tmp/quote-1.dat"
  write := fun _ _ => none
  combinedOutput := fun _ _ => ("", none)
  formatRFC3339 := fun t => toString t

/-- Collaborators whose verifiers reject: the TDX trust check and the external
tool both return an error. -/
def rejectingCollaborators : Collaborators (List Byte) :=
  { demoCollaborators with
    quoteToProto := fun raw => .ok raw.bytes,
    tdxQuote := fun _ => some "signature mismatch",
    combinedOutput := fun _ _ => ("quote rejected", some "exit status 1") }

/-- Collaborators whose verifiers accept. -/
def acceptingCollaborators : Collaborators (List Byte) :=
  { demoCollaborators with quoteToProto := fun raw => .ok raw.bytes }

/-- A small instance of the library for worked examples: the token string is
the triple of its decoded segments, and a signature is the key followed by
the length of the signing string. -/
def demoLib : JwtLib Compact where
  signingString := fun alg claims => alg ++ "." ++ claims.Subject ++ "." ++ claims.Scope
  compact := fun alg claims sig =>
    { alg := some alg, claims := claims,
      signingString := alg ++ "." ++ claims.Subject ++ "." ++ claims.Scope,
      signature := some sig }
  split := fun w => .ok w
  sign := fun _ m key => .ok (key ++ [Fin.ofNat m.length])
  verify := fun _ m sig key =>
    if sig = key ++ [Fin.ofNat m.length] then Option.none
    else some "ed25519: verification error"

/-- Key material for worked examples. -/
def demoKeys : KeyMaterial := { signingKey := [1, 2, 3], verifyingKey := [1, 2, 3] }

/-- A library instance over Go strings in which every token string decodes to
an EdDSA token with claims `sub = acme`, `scope = admin` and no `exp`, and
every signature verifies. -/
def noExpiryLib : JwtLib String where
  signingString := fun _ _ => "h.p"
  compact := fun _ _ _ => "h.p.s"
  split := fun _ =>
    .ok { alg := some "EdDSA", claims := { Subject := "acme", Scope := "admin" },
          signingString := "h.p", signature := some [] }
  sign := fun _ _ _ => .ok []
  verify := fun _ _ _ _ => Option.none

/-- A library instance in which every token string decodes to an HS256 token
with an expiry far in the future, and every signature verifies. -/
def hs256Lib : JwtLib String where
  signingString := fun _ _ => "h.p"
  compact := fun _ _ _ => "h.p.s"
  split := fun _ =>
    .ok { alg := some "HS256",
          claims := { Subject := "acme", Scope := "admin",
                      ExpiresAt := some 4102444800000000000 },
          signingString := "h.p", signature := some [] }
  sign := fun _ _ _ => .ok []
  verify := fun _ _ _ _ => Option.none

/-! ## Helper lemmas -/

theorem leUint16_eq (b0 b1 : Byte) :
    (b0.val ||| (b1.val <<< 8)) % 65536 = b0.val + 256 * b1.val := by
  have h0 : b0.val < 2 ^ 8 := b0.isLt
  have h1 : b1.val < 256 := b1.isLt
  have h := Nat.mul_add_lt_is_or h0 b1.val
  rw [Nat.shiftLeft_eq, Nat.lor_comm, Nat.mul_comm, ← h]
  omega

theorem quoteType_eval (raw : GoSlice) (h : 4 ≤ raw.len) :
    quoteType raw =
      some (if versionField raw = 3 then "sgx"
            else if versionField raw = 4 then "tdx" else "unknown") := by
  obtain ⟨buf, len, hlen⟩ := raw
  simp only at h
  match buf, hlen with
  | b0 :: b1 :: rest, hlen =>
    have h2 : 2 ≤ (b0 :: b1 :: rest).length := by simp
    simp only [quoteType, GoSlice.sliceTo, Uint16, GoSlice.index, versionField, GoSlice.bytes]
    have hl : ¬ len < 4 := by omega
    obtain ⟨k, rfl⟩ : ∃ k, len = k + 2 := ⟨len - 2, by omega⟩
    simp [hl, leUint16_eq]
    split_ifs <;> rfl
  | [], hlen => simp at hlen; omega
  | [_], hlen => simp at hlen; omega

theorem scopeFound_iff (r : String) (l : List String) :
    scopeFound r l = true ↔ ∃ e ∈ l, TrimSpace e = r := by
  induction l with
  | nil => simp [scopeFound]
  | cons s rest ih =>
    by_cases h : TrimSpace s = r
    · simp [scopeFound, h]
    · simp [scopeFound, h, ih]

theorem splitChars_ne_nil (sep : Char) (l : List Char) : splitChars sep l ≠ [] := by
  cases l with
  | nil => simp [splitChars]
  | cons c cs =>
    simp only [splitChars]
    split_ifs
    · simp
    · split <;> simp

theorem splitChars_intercalate (sep : Char) (l : List Char) :
    List.intercalate [sep] (splitChars sep l) = l := by
  induction l with
  | nil => simp [splitChars, List.intercalate]
  | cons c cs ih =>
    simp only [splitChars]
    split_ifs with hc
    · have hne := splitChars_ne_nil sep cs
      cases hs : splitChars sep cs with
      | nil => exact absurd hs hne
      | cons hd tl =>
        rw [hs] at ih
        simp [List.intercalate] at ih ⊢
        rw [hc]
        simpa using ih
    · cases hs : splitChars sep cs with
      | nil => exact absurd hs (splitChars_ne_nil sep cs)
      | cons hd tl =>
        rw [hs] at ih
        cases tl with
        | nil => simp [List.intercalate] at ih ⊢; exact ih
        | cons t ts => simp [List.intercalate] at ih ⊢; exact ih

theorem splitChars_no_sep (sep : Char) (l : List Char) :
    ∀ e ∈ splitChars sep l, sep ∉ e := by
  induction l with
  | nil => simp [splitChars]
  | cons c cs ih =>
    simp only [splitChars]
    split_ifs with hc
    · intro e he
      rcases List.mem_cons.mp he with rfl | he
      · simp
      · exact ih e he
    · cases hs : splitChars sep cs with
      | nil => exact absurd hs (splitChars_ne_nil sep cs)
      | cons hd tl =>
        rw [hs] at ih
        intro e he
        rcases List.mem_cons.mp he with rfl | he
        · have := ih hd (by simp)
          simp only [List.mem_cons, not_or]
          exact ⟨fun h => hc h.symm, this⟩
        · exact ih e (by simp [he])


theorem rdropWhile_append_rtakeWhile (p : Char → Bool) (l : List Char) :
    l.rdropWhile p ++ l.rtakeWhile p = l := by
  have h := List.takeWhile_append_dropWhile p l.reverse
  simp only [List.rdropWhile, List.rtakeWhile, ← List.reverse_append, h, List.reverse_reverse]

/-- The function `TrimSpace` removes a run of white space at each end and nothing else,
and what is left neither starts nor ends with white space. -/
theorem TrimSpace_decomp (s : String) :
    ∃ pre post : List Char,
      s.data = pre ++ (TrimSpace s).data ++ post ∧
      (∀ c ∈ pre, IsSpace c = true) ∧ (∀ c ∈ post, IsSpace c = true) ∧
      (∀ c, (TrimSpace s).data.head? = some c → IsSpace c = false) ∧
      (∀ c, (TrimSpace s).data.getLast? = some c → IsSpace c = false) := by
  refine ⟨s.data.takeWhile IsSpace, (s.data.dropWhile IsSpace).rtakeWhile IsSpace,
    ?_, ?_, ?_, ?_, ?_⟩
  · simp only [TrimSpace, List.append_assoc]
    rw [rdropWhile_append_rtakeWhile, List.takeWhile_append_dropWhile]
  · intro c hc
    exact List.mem_takeWhile_imp hc
  · intro c hc
    exact List.mem_rtakeWhile_imp hc
  · intro c hc
    simp only [TrimSpace] at hc
    obtain ⟨t, ht⟩ := List.rdropWhile_prefix IsSpace (l := s.data.dropWhile IsSpace)
    cases hr : (s.data.dropWhile IsSpace).rdropWhile IsSpace with
    | nil => rw [hr] at hc; simp at hc
    | cons a as =>
      rw [hr] at hc ht
      simp only [List.head?_cons, Option.some.injEq] at hc
      subst hc
      have h0 := List.head?_dropWhile_not IsSpace s.data
      rw [← ht] at h0
      simpa using h0
  · intro c hc
    simp only [TrimSpace] at hc
    by_cases hne : (s.data.dropWhile IsSpace).rdropWhile IsSpace = []
    · rw [hne] at hc; simp at hc
    · have h := List.rdropWhile_last_not IsSpace (s.data.dropWhile IsSpace) hne
      rw [List.getLast?_eq_getLast _ hne] at hc
      simp only [Option.some.injEq] at hc
      rw [hc] at h
      simpa using h

/-- The elements of `Split s sep` joined by `sep` give `s` back, and none of
them contains `sep`. -/
theorem Split_spec (s : String) (sep : Char) :
    List.intercalate [sep] ((Split s sep).map String.data) = s.data ∧
    ∀ e ∈ Split s sep, sep ∉ e.data := by
  constructor
  · have h : (Split s sep).map String.data = splitChars sep s.data := by
      simp [Split, Function.comp_def]
    rw [h, splitChars_intercalate]
  · intro e he
    simp only [Split, List.mem_map] at he
    obtain ⟨l, hl, rfl⟩ := he
    exact splitChars_no_sep sep s.data l hl

theorem quoteType_outcomes (raw : GoSlice) :
    quoteType raw = some "sgx" ∨ quoteType raw = some "tdx" ∨
      quoteType raw = some "unknown" := by
  by_cases h : 4 ≤ raw.len
  · rw [quoteType_eval raw h]
    split_ifs <;> simp
  · simp [quoteType, Nat.lt_of_not_le h]

theorem Uint16_sliceTo_two (raw : GoSlice) (h : 2 ≤ raw.cap) :
    ∃ hd, raw.sliceTo 2 = some hd ∧ Uint16 hd = some (backingVersion raw) := by
  obtain ⟨buf, len, hlen⟩ := raw
  match buf, hlen, h with
  | b0 :: b1 :: rest, hlen, _ =>
    refine ⟨⟨b0 :: b1 :: rest, 2, by simp⟩, ?_, ?_⟩
    · simp [GoSlice.sliceTo]
    · simp [Uint16, GoSlice.index, backingVersion, leUint16_eq]
  | [], _, h => simp [GoSlice.cap] at h
  | [_], _, h => simp [GoSlice.cap] at h

theorem sliceTo_two_none (raw : GoSlice) (h : raw.cap < 2) : raw.sliceTo 2 = none := by
  simp only [GoSlice.cap] at h
  simp [GoSlice.sliceTo, h]

theorem backingVersion_eq_versionField (raw : GoSlice) (h : 2 ≤ raw.len) :
    backingVersion raw = versionField raw := by
  obtain ⟨buf, len, hlen⟩ := raw
  simp only at h
  obtain ⟨k, rfl⟩ : ∃ k, len = k + 2 := ⟨len - 2, by omega⟩
  match buf, hlen with
  | b0 :: b1 :: rest, _ => simp [backingVersion, versionField, GoSlice.bytes]
  | [], hlen => simp at hlen
  | [_], hlen => simp at hlen

/-- What `verifyHandler` does with evidence classified "unknown". -/
theorem verifyHandler_unknown {Q : Type} (x : Collaborators Q) (r : Request)
    (req : VerifyRequest) (raw : GoSlice)
    (hm : r.Method = "POST") (hj : x.decodeVerifyRequest r.Body = .ok req)
    (hne : req.Quote ≠ "") (hb : x.base64Decode req.Quote = .ok raw)
    (hu : quoteType raw = some "unknown") :
    verifyHandler x r =
      Event.log ("Received unknown quote (" ++ toString raw.len ++ " bytes)") ::
        (if 2 ≤ raw.cap then
          [Event.sendJSON 400
            { Success := false,
              Error := "Unsupported quote format (version " ++
                       toString (backingVersion raw) ++ ")" }]
         else [Event.panic "runtime error: slice bounds out of range [:2]"]) := by
  by_cases hc : 2 ≤ raw.cap
  · obtain ⟨hd, h1, h2⟩ := Uint16_sliceTo_two raw hc
    simp [verifyHandler, hm, hj, hne, hb, hu, h1, h2, hc, sendJSON]
  · have h1 := sliceTo_two_none raw (Nat.lt_of_not_le hc)
    simp [verifyHandler, hm, hj, hne, hb, hu, h1, hc]

/-- Evidence classified "unknown" never reaches a verifier, and at most one
response is written. -/
theorem verifyHandler_unknown_no_verifier {Q : Type} (x : Collaborators Q)
    (r : Request) (req : VerifyRequest) (raw : GoSlice)
    (hm : r.Method = "POST") (hj : x.decodeVerifyRequest r.Body = .ok req)
    (hne : req.Quote ≠ "") (hb : x.base64Decode req.Quote = .ok raw)
    (hu : quoteType raw = some "unknown") :
    (∀ e ∈ verifyHandler x r, e.isVerifierCall = false) ∧
    ((verifyHandler x r).filter Event.isResponse).length =
      if 2 ≤ raw.cap then 1 else 0 := by
  rw [verifyHandler_unknown x r req raw hm hj hne hb hu]
  by_cases hc : 2 ≤ raw.cap
  · simp [hc, Event.isVerifierCall, Event.isResponse]
  · simp [hc, Event.isVerifierCall, Event.isResponse]

theorem verifyTDX_success {Q : Type} (x : Collaborators Q) (raw : GoSlice)
    (st : Nat) (resp : VerifyResponse)
    (hmem : Event.sendJSON st resp ∈ verifyTDX x raw) (hs : resp.Success = true) :
    (∃ q, x.quoteToProto raw = .ok q ∧ x.tdxQuote q = none) ∧
      st = 200 ∧ resp.Status = "OK" := by
  unfold verifyTDX at hmem
  cases hq : x.quoteToProto raw with
  | error e =>
    simp [hq, sendJSON] at hmem
    obtain ⟨-, rfl⟩ := hmem
    simp at hs
  | ok q =>
    cases ht : x.tdxQuote q with
    | some e =>
      simp [hq, ht, sendJSON] at hmem
      obtain ⟨-, rfl⟩ := hmem
      simp at hs
    | none =>
      simp [hq, ht, sendJSON] at hmem
      obtain ⟨rfl, rfl⟩ := hmem
      exact ⟨⟨q, rfl, ht⟩, rfl, rfl⟩

theorem verifySGX_success {Q : Type} (x : Collaborators Q) (raw : GoSlice)
    (st : Nat) (resp : VerifyResponse)
    (hmem : Event.sendJSON st resp ∈ verifySGX x raw) (hs : resp.Success = true) :
    (∃ name, x.createTemp = .ok name ∧ x.write name raw.bytes = none ∧
      (x.combinedOutput name raw.bytes).2 = none) ∧ st = 200 ∧ resp.Status = "OK" := by
  unfold verifySGX at hmem
  cases hc : x.createTemp with
  | error e =>
    simp [hc, sendJSON] at hmem
    obtain ⟨-, rfl⟩ := hmem
    simp at hs
  | ok name =>
    cases hw : x.write name raw.bytes with
    | some e =>
      simp [hc, hw, sendJSON] at hmem
      obtain ⟨-, rfl⟩ := hmem
      simp at hs
    | none =>
      rcases ho : x.combinedOutput name raw.bytes with ⟨output, oerr⟩
      cases oerr with
      | some e =>
        simp [hc, hw, ho, sendJSON] at hmem
        obtain ⟨-, rfl⟩ := hmem
        simp at hs
      | none =>
        simp [hc, hw, ho, sendJSON] at hmem
        obtain ⟨rfl, rfl⟩ := hmem
        exact ⟨⟨name, rfl, hw, by simp [ho]⟩, rfl, rfl⟩

theorem verifyTDX_accepts {Q : Type} (x : Collaborators Q) (raw : GoSlice) (q : Q)
    (h1 : x.quoteToProto raw = .ok q) (h2 : x.tdxQuote q = none) :
    verifyTDX x raw =
      [Event.call .QuoteToProto, Event.call .TdxQuote,
       Event.sendJSON 200
         { Success := true, Status := "OK",
           Message := "TDX quote verified (signature + certificate chain)" }] := by
  simp [verifyTDX, h1, h2, sendJSON]

theorem verifySGX_accepts {Q : Type} (x : Collaborators Q) (raw : GoSlice)
    (name : String) (h1 : x.createTemp = .ok name) (h2 : x.write name raw.bytes = none)
    (h3 : (x.combinedOutput name raw.bytes).2 = none) :
    verifySGX x raw =
      [Event.call .CreateTemp, Event.call (.Write name), Event.call (.Close name),
       Event.call (.CombinedOutput name),
       Event.sendJSON 200
         { Success := true, Status := "OK", Message := "SGX quote verified via DCAP" },
       Event.call (.Remove name)] := by
  rcases ho : x.combinedOutput name raw.bytes with ⟨output, oerr⟩
  rw [ho] at h3
  simp only at h3
  subst h3
  simp [verifySGX, h1, h2, ho, sendJSON]

theorem floor_billion (t : Int) :
    t / 1000000000 * 1000000000 ≤ t ∧ t < t / 1000000000 * 1000000000 + 1000000000 ∧
    (t / 1000000000 * 1000000000) % 1000000000 = 0 := by
  omega

theorem truncateSecond_le (t : Time) : truncateSecond t ≤ t :=
  (floor_billion t).1

theorem lt_truncateSecond_add (t : Time) : t < truncateSecond t + Second :=
  (floor_billion t).2.1

theorem truncateSecond_mod (t : Time) : truncateSecond t % Second = 0 :=
  (floor_billion t).2.2

theorem issuedClaims_whole_seconds (now : Time) (subject scope : String)
    (validity : Duration) (t : Time)
    (h : (issuedClaims now subject scope validity).ExpiresAt = some t ∨
         (issuedClaims now subject scope validity).NotBefore = some t ∨
         (issuedClaims now subject scope validity).IssuedAt = some t) :
    t % Second = 0 := by
  simp only [issuedClaims, NewNumericDate, Option.some.injEq] at h
  rcases h with h | h | h
  · rw [← h]; exact truncateSecond_mod _
  · simp at h
  · rw [← h]; exact truncateSecond_mod _

theorem validateClaims_issued (now t : Time) (subject scope : String)
    (validity : Duration) :
    validateClaims t (issuedClaims now subject scope validity).toRegisteredClaims =
      if t < NewNumericDate (now + validity) then Option.none
      else some "token is expired" := by
  simp only [validateClaims, issuedClaims]
  by_cases h : t < NewNumericDate (now + validity) <;> simp [h]

theorem keyFunc_iff (keys : KeyMaterial) (t : Token) :
    (keyFunc keys t = .ok keys.verifyingKey ↔ t.Method = .Ed25519) ∧
    (∀ k, keyFunc keys t = .ok k → k = keys.verifyingKey) ∧
    (t.Method ≠ .Ed25519 →
      keyFunc keys t = .error ("unexpected signing method: " ++ t.alg)) := by
  cases hm : t.Method <;> simp [keyFunc, hm]

theorem GetSigningMethod_ed25519 (alg : String) :
    GetSigningMethod alg = some .Ed25519 ↔ alg = "EdDSA" := by
  constructor
  · intro h
    unfold GetSigningMethod at h
    split_ifs at h <;> simp_all
  · rintro rfl
    decide

theorem demoLib_lawful : demoLib.Lawful := by
  intro alg claims sig _
  rfl

theorem demoKeys_matching : MatchingPair demoLib demoKeys := by
  intro m
  exact ⟨[1, 2, 3] ++ [Fin.ofNat m.length], rfl, by simp [demoLib, demoKeys]⟩

/-- The model of the library accepts an EdDSA token whose signature verifies
and whose claims carry neither `exp` nor `nbf`, at every clock reading. -/
theorem ValidateAPIKey_accepts_without_exp {W : Type} (lib : JwtLib W)
    (keys : KeyMaterial) (now : Time) (tok : W) (claims : APIKeyClaims)
    (sstr : String) (sig : List Byte)
    (hs : lib.split tok = .ok { alg := some "EdDSA", claims := claims,
                                signingString := sstr, signature := some sig })
    (hv : lib.verify .Ed25519 sstr sig keys.verifyingKey = Option.none)
    (he : claims.ExpiresAt = Option.none) (hn : claims.NotBefore = Option.none) :
    ValidateAPIKey lib keys now tok = .ok claims := by
  have hg : GetSigningMethod "EdDSA" = some .Ed25519 := by decide
  simp [ValidateAPIKey, ParseWithClaims, hs, hg, keyFunc, hv, validateClaims, he, hn]

/-- Whenever every check of `requireAuth` passes and the accepted claims carry
no expiry, the run is a single panic: neither a response nor the wrapped
handler. -/
theorem requireAuth_nil_expiry (validate : String → Except String APIKeyClaims)
    (fmtTime : Int → String) (next : Request → List Event)
    (requiredScope : String) (r : Request) (claims : APIKeyClaims)
    (h1 : r.Authorization ≠ "") (h2 : HasPrefix r.Authorization "Bearer " = true)
    (hv : validate (TrimPrefix r.Authorization "Bearer ") = .ok claims)
    (hs : scopeCheck requiredScope claims.Scope = true)
    (he : claims.ExpiresAt = Option.none) :
    requireAuth validate fmtTime next requiredScope r =
      [Event.panic "runtime error: invalid memory address or nil pointer dereference"] := by
  simp [requireAuth, h1, h2, hv, hs, he]

/-- What `requireAuth` does when the accepted claims carry an expiry: the
wrapped handler runs exactly once, after one log line, iff every check
passes; otherwise exactly one response is written, 401 for an authentication
failure and 403 "Insufficient scope" for an accepted token without the
scope. -/
theorem requireAuth_gate (validate : String → Except String APIKeyClaims)
    (fmtTime : Int → String) (next : Request → List Event)
    (requiredScope : String) (r : Request)
    (hexp : ∀ t c, validate t = .ok c → c.ExpiresAt ≠ Option.none) :
    (authPasses validate requiredScope r →
      ∃ line, requireAuth validate fmtTime next requiredScope r =
        Event.log line :: Event.call .next :: next r) ∧
    (¬ authPasses validate requiredScope r →
      ∃ st resp, requireAuth validate fmtTime next requiredScope r =
          [Event.sendJSON st resp] ∧ resp.Success = false ∧
        ((st = 401 ∧ ∀ c, r.Authorization ≠ "" →
            HasPrefix r.Authorization "Bearer " = true →
            validate (TrimPrefix r.Authorization "Bearer ") ≠ .ok c) ∨
         (st = 403 ∧ resp.Error = "Insufficient scope" ∧
            ∃ c, validate (TrimPrefix r.Authorization "Bearer ") = .ok c ∧
              scopeCheck requiredScope c.Scope = false))) := by
  unfold authPasses
  by_cases h1 : r.Authorization = ""
  · refine ⟨fun h => absurd h1 h.1, fun _ => ⟨401,
      VerifyResponse.mk false "" "" [] "" "Missing Authorization header",
      ?_, rfl, Or.inl ⟨rfl, ?_⟩⟩⟩
    · simp [requireAuth, h1, sendJSON]
    · intro c hne
      exact absurd h1 hne
  by_cases h2 : HasPrefix r.Authorization "Bearer " = true
  swap
  · refine ⟨fun h => absurd h.2.1 h2, fun _ => ⟨401,
      VerifyResponse.mk false "" "" [] "" "Authorization must use Bearer scheme",
      ?_, rfl, Or.inl ⟨rfl, ?_⟩⟩⟩
    · simp [requireAuth, h1, h2, sendJSON]
    · intro c _ hp
      exact absurd hp h2
  cases hv : validate (TrimPrefix r.Authorization "Bearer ") with
  | error e =>
    refine ⟨?_, fun _ => ⟨401,
      VerifyResponse.mk false "" "" [] "" ("Invalid API key: " ++ e),
      ?_, rfl, Or.inl ⟨rfl, ?_⟩⟩⟩
    · rintro ⟨-, -, c, hc, -⟩
      simp at hc
    · simp [requireAuth, h1, h2, hv, sendJSON]
    · intro c _ _
      simp
  | ok c =>
    by_cases hs : scopeCheck requiredScope c.Scope = true
    · cases he : c.ExpiresAt with
      | none => exact absurd he (hexp _ c hv)
      | some exp =>
        refine ⟨fun _ => ⟨"Authenticated request from " ++ c.Subject.quote ++
          " (scope=" ++ c.Scope ++ ", exp=" ++ fmtTime exp ++ ")", ?_⟩,
          fun h => absurd ⟨h1, h2, c, rfl, hs⟩ h⟩
        simp [requireAuth, h1, h2, hv, hs, he]
    · refine ⟨?_, fun _ => ⟨403,
        VerifyResponse.mk false "" "" [] "" "Insufficient scope",
        ?_, rfl, Or.inr ⟨rfl, rfl, c, rfl, ?_⟩⟩⟩
      · rintro ⟨-, -, c2, hc, hs2⟩
        simp only [Except.ok.injEq] at hc
        subst hc
        exact absurd hs2 hs
      · simp [requireAuth, h1, h2, hv, hs, sendJSON]
      · simpa using hs

theorem validityOfDays_in_range (d : Int) (h0 : 0 < d) (h1 : d ≤ 106751) :
    validityOfDays d = d * 86400000000000 ∧ 0 < validityOfDays d := by
  have h : wrapInt64 (wrapInt64 (d * 24) * (3600 * 1000000000)) = d * 86400000000000 := by
    have e1 : (2 : Int) ^ 63 = 9223372036854775808 := by norm_num
    have e2 : (2 : Int) ^ 64 = 18446744073709551616 := by norm_num
    simp only [wrapInt64, e1, e2]
    omega
  have h' : validityOfDays d = d * 86400000000000 := h
  rw [h']
  have hpos : (0 : Int) < d * 86400000000000 := by omega
  exact ⟨rfl, hpos⟩

theorem NewNumericDate_lt (now : Time) (validity : Duration) (h : validity ≤ -Second) :
    NewNumericDate (now + validity) < NewNumericDate now := by
  have h1 : NewNumericDate (now + validity) ≤ now + validity := truncateSecond_le _
  have h2 : now < NewNumericDate now + Second := lt_truncateSecond_add _
  have h3 : now + validity ≤ now + -Second := by
    exact Int.add_le_add_left h now
  have h4 : NewNumericDate (now + validity) + Second ≤ now := by
    have := le_trans h1 h3
    have h5 := Int.add_le_add_right this Second
    simpa using h5
  exact lt_of_add_lt_add_right (lt_of_le_of_lt h4 h2)

/-- What `issueHandler` does with a POST request whose body decodes. -/
theorem issueHandler_spec {Q : Type} (x : Collaborators Q) (lib : JwtLib String)
    (keys : KeyMaterial) (now now2 : Time) (r : Request) (req : IssueRequest)
    (hm : r.Method = "POST") (hj : x.decodeIssueRequest r.Body = .ok req) :
    (req.Subject = "" →
      issueHandler x lib keys now now2 r =
        [Event.sendJSON 400 { Success := false, Error := "subject is required" }]) ∧
    (req.Subject ≠ "" →
      issueHandler x lib keys now now2 r =
        match IssueAPIKey lib keys now req.Subject
            (if req.Scope = "" then "verify" else req.Scope)
            (validityOfDays (if req.DaysValid ≤ 0 then 30 else req.DaysValid)) with
        | .error _ =>
          [Event.sendJSON 500 { Success := false, Error := "Failed to issue token" }]
        | .ok token =>
          [Event.issued 200
            { Token := token, Subject := req.Subject,
              Scope := if req.Scope = "" then "verify" else req.Scope,
              Expires := x.formatRFC3339
                (now2 + validityOfDays (if req.DaysValid ≤ 0 then 30 else req.DaysValid)) }]) := by
  constructor
  · intro hs
    simp [issueHandler, hm, hj, hs, sendJSON]
  · intro hs
    simp only [issueHandler, hm, hj, hs, sendJSON]
    simp

/-! ## UTF-8 and the JSON text of a Go string -/

theorem byte_val (n : Nat) : (byte n).val = n % 256 := rfl

theorem DecodeRune_utf8EncodeChar (c : Char) (rest : List Byte) :
    DecodeRune (utf8EncodeChar c ++ rest) = some (c, rest) := by
  have hv : c.toNat < 55296 ∨ 57343 < c.toNat ∧ c.toNat < 1114112 := c.valid
  have hc : Char.ofNat c.toNat = c := Char.ofNat_toNat c
  unfold utf8EncodeChar
  simp only []
  generalize c.toNat = n at hv hc ⊢
  by_cases h1 : n < 0x80
  · have e : n % 256 = n := by omega
    simp [h1, DecodeRune, byte_val, e, hc]
  by_cases h2 : n < 0x800
  · have e0 : (0xC0 + n / 64) % 256 = 0xC0 + n / 64 := by omega
    have e1 : (0x80 + n % 64) % 256 = 0x80 + n % 64 := by omega
    have a0 : ¬ (0xC0 + n / 64 < 0x80) := by omega
    have a1 : 0xC2 ≤ 0xC0 + n / 64 ∧ 0xC0 + n / 64 ≤ 0xDF := by omega
    have en : n / 64 * 64 + n % 64 = n := by omega
    simp [h1, h2, DecodeRune, byte_val, e0, e1, a0, a1, isCont, en, hc]
    omega
  by_cases h3 : n < 0x10000
  · have e0 : (0xE0 + n / 4096) % 256 = 0xE0 + n / 4096 := by omega
    have e1 : (0x80 + n / 64 % 64) % 256 = 0x80 + n / 64 % 64 := by omega
    have e2 : (0x80 + n % 64) % 256 = 0x80 + n % 64 := by omega
    have a0 : ¬ (0xE0 + n / 4096 < 0x80) := by omega
    have a1 : ¬ (0xC2 ≤ 0xE0 + n / 4096 ∧ 0xE0 + n / 4096 ≤ 0xDF) := by omega
    have a2 : 0xE0 ≤ 0xE0 + n / 4096 ∧ 0xE0 + n / 4096 ≤ 0xEF := by omega
    have a3 : (if 0xE0 + n / 4096 = 0xE0 then 0xA0 else 0x80) ≤ 0x80 + n / 64 % 64 := by
      split_ifs <;> omega
    have a4 : 0x80 + n / 64 % 64 ≤ (if 0xE0 + n / 4096 = 0xED then 0x9F else 0xBF) := by
      split_ifs <;> omega
    have en : n / 4096 * 4096 + n / 64 % 64 * 64 + n % 64 = n := by omega
    simp only [h1, h2, h3, DecodeRune, byte_val, e0, e1, e2, a0, a1, a2, a3, a4, isCont,
      if_true, if_false, List.cons_append, List.nil_append, and_self, true_and]
    simp [en, hc]
    omega
  · have h4 : n < 1114112 := by omega
    have e0 : (0xF0 + n / 262144) % 256 = 0xF0 + n / 262144 := by omega
    have e1 : (0x80 + n / 4096 % 64) % 256 = 0x80 + n / 4096 % 64 := by omega
    have e2 : (0x80 + n / 64 % 64) % 256 = 0x80 + n / 64 % 64 := by omega
    have e3 : (0x80 + n % 64) % 256 = 0x80 + n % 64 := by omega
    have a0 : ¬ (0xF0 + n / 262144 < 0x80) := by omega
    have a1 : ¬ (0xC2 ≤ 0xF0 + n / 262144 ∧ 0xF0 + n / 262144 ≤ 0xDF) := by omega
    have a2 : ¬ (0xE0 ≤ 0xF0 + n / 262144 ∧ 0xF0 + n / 262144 ≤ 0xEF) := by omega
    have a3 : 0xF0 ≤ 0xF0 + n / 262144 ∧ 0xF0 + n / 262144 ≤ 0xF4 := by omega
    have a4 : (if 0xF0 + n / 262144 = 0xF0 then 0x90 else 0x80) ≤ 0x80 + n / 4096 % 64 := by
      split_ifs <;> omega
    have a5 : 0x80 + n / 4096 % 64 ≤ (if 0xF0 + n / 262144 = 0xF4 then 0x8F else 0xBF) := by
      split_ifs <;> omega
    have en : n / 262144 * 262144 + n / 4096 % 64 * 4096 + n / 64 % 64 * 64 + n % 64 = n := by
      omega
    simp only [h1, h2, h3, DecodeRune, byte_val, e0, e1, e2, e3, a0, a1, a2, a3, a4, a5, isCont,
      if_true, if_false, List.cons_append, List.nil_append, and_self, true_and]
    simp [en, hc]
    omega

theorem utf8EncodeChar_ne_nil (c : Char) : utf8EncodeChar c ≠ [] := by
  unfold utf8EncodeChar
  simp only []
  split_ifs <;> simp

theorem jsonRunes_utf8EncodeChars (cs : List Char) :
    ∀ fuel, (utf8EncodeChars cs).length ≤ fuel →
      jsonRunes fuel (utf8EncodeChars cs) = cs := by
  induction cs with
  | nil =>
    intro fuel _
    cases fuel <;> simp [utf8EncodeChars, jsonRunes]
  | cons c cs ih =>
    intro fuel hf
    have hd := DecodeRune_utf8EncodeChar c (utf8EncodeChars cs)
    simp only [utf8EncodeChars] at hf ⊢
    cases he : utf8EncodeChar c with
    | nil => exact absurd he (utf8EncodeChar_ne_nil c)
    | cons b t =>
      rw [he] at hd hf
      simp only [List.cons_append, List.length_cons, List.length_append] at hf
      cases fuel with
      | zero => omega
      | succ f =>
        simp only [List.cons_append] at hd ⊢
        simp only [jsonRunes, hd]
        rw [ih f (by omega)]

/-- The text of a valid UTF-8 Go string is the Unicode string it encodes:
encoding/json changes nothing in it. -/
theorem jsonText_utf8Encode (s : String) : jsonText (utf8Encode s) = s := by
  unfold jsonText utf8Encode
  rw [jsonRunes_utf8EncodeChars s.data _ (Nat.le_refl _)]

/-- On valid UTF-8 arguments the byte-level `IssueAPIKey` is the one on
Unicode strings. -/
theorem OnBytes_IssueAPIKey_utf8Encode {W : Type} (lib : JwtLib W) (keys : KeyMaterial)
    (now : Time) (subject scope : String) (validity : Duration) :
    OnBytes.IssueAPIKey lib keys now (utf8Encode subject) (utf8Encode scope) validity =
      IssueAPIKey lib keys now subject scope validity := by
  simp [OnBytes.IssueAPIKey, IssueAPIKey, OnBytes.issuedClaims, issuedClaims,
    GoClaims.onWire, jsonText_utf8Encode]

theorem onWire_whole_seconds (now : Time) (subject scope : GoString)
    (validity : Duration) (t : Time)
    (h : (OnBytes.issuedClaims now subject scope validity).onWire.ExpiresAt = some t ∨
         (OnBytes.issuedClaims now subject scope validity).onWire.NotBefore = some t ∨
         (OnBytes.issuedClaims now subject scope validity).onWire.IssuedAt = some t) :
    t % Second = 0 := by
  simp only [OnBytes.issuedClaims, GoClaims.onWire, NewNumericDate, Option.some.injEq] at h
  rcases h with h | h | h
  · rw [← h]; exact truncateSecond_mod _
  · simp at h
  · rw [← h]; exact truncateSecond_mod _

theorem validateClaims_onWire (now t : Time) (subject scope : GoString)
    (validity : Duration) :
    validateClaims t
        (OnBytes.issuedClaims now subject scope validity).onWire.toRegisteredClaims =
      if t < NewNumericDate (now + validity) then Option.none
      else some "token is expired" := by
  simp only [validateClaims, OnBytes.issuedClaims, GoClaims.onWire]
  by_cases h : t < NewNumericDate (now + validity) <;> simp [h]

/-- What issuing and then validating gives, for arbitrary Go strings: the
token is accepted exactly before the expiry truncated to a whole second, and
the claims returned carry the JSON text of the subject and of the scope. -/
theorem issue_then_validate {W : Type} (lib : JwtLib W) (keys : KeyMaterial)
    (now t : Time) (subject scope : GoString) (validity : Duration)
    (hl : lib.Lawful) (hk : MatchingPair lib keys) :
    ∃ tok, OnBytes.IssueAPIKey lib keys now subject scope validity = .ok tok ∧
      ValidateAPIKey lib keys t tok =
        if t < NewNumericDate (now + validity) then
          .ok (OnBytes.issuedClaims now subject scope validity).onWire
        else .error "token has invalid claims: token is expired" := by
  obtain ⟨sig, hs, hv⟩ :=
    hk (lib.signingString "EdDSA" (OnBytes.issuedClaims now subject scope validity).onWire)
  have hsplit := hl "EdDSA" (OnBytes.issuedClaims now subject scope validity).onWire sig
    (onWire_whole_seconds now subject scope validity)
  refine ⟨lib.compact "EdDSA" (OnBytes.issuedClaims now subject scope validity).onWire sig,
    ?_, ?_⟩
  · simp [OnBytes.IssueAPIKey, SignedString, SigningMethod.Alg, hs]
  · have hg : GetSigningMethod "EdDSA" = some .Ed25519 := by decide
    by_cases hexp : t < NewNumericDate (now + validity)
    · simp [ValidateAPIKey, ParseWithClaims, hsplit, hg, keyFunc, hv,
        validateClaims_onWire, hexp]
    · simp [ValidateAPIKey, ParseWithClaims, hsplit, hg, keyFunc, hv,
        validateClaims_onWire, hexp]

theorem now_lt_expiry (now : Time) (validity : Duration) (h : Second ≤ validity) :
    now < NewNumericDate (now + validity) := by
  have h1 : now + validity < NewNumericDate (now + validity) + Second :=
    lt_truncateSecond_add (now + validity)
  have h2 : now + Second ≤ now + validity := Int.add_le_add_left h now
  exact lt_of_add_lt_add_right (lt_of_le_of_lt h2 h1)

/-! ## Theorems -/

/-- C1: `quoteType` is total (never panics) with exactly three outcomes:
it is "sgx" iff `len(raw) ≥ 4` and `raw[0] + 256*raw[1] = 3`, "tdx" iff
`len(raw) ≥ 4` and `raw[0] + 256*raw[1] = 4`, and "unknown" in every other
case, in particular for every slice shorter than 4 bytes. -/
theorem quoteType_total_three_outcomes (raw : GoSlice) :
    (quoteType raw = some "sgx" ↔ 4 ≤ raw.len ∧ versionField raw = 3) ∧
    (quoteType raw = some "tdx" ↔ 4 ≤ raw.len ∧ versionField raw = 4) ∧
    (quoteType raw = some "unknown" ↔
      ¬ (4 ≤ raw.len ∧ (versionField raw = 3 ∨ versionField raw = 4))) ∧
    (raw.len < 4 → quoteType raw = some "unknown") ∧
    (quoteType raw = some "sgx" ∨ quoteType raw = some "tdx" ∨
      quoteType raw = some "unknown") := by
  by_cases h : 4 ≤ raw.len
  · rw [quoteType_eval raw h]
    by_cases h3 : versionField raw = 3
    · simp [h3, h]
    · by_cases h4 : versionField raw = 4
      · simp [h4, h]
      · simp [h3, h4, h]
  · have hu : quoteType raw = some "unknown" := by
      simp [quoteType, Nat.lt_of_not_le h]
    simp [hu, h, Nat.lt_of_not_le h]

/-- C1, at a two-byte input whose first bytes are 03 00: shorter than four
bytes, so "unknown". -/
theorem quoteType_total_three_outcomes_witness :
    quoteType (GoSlice.ofList [3, 0]) = some "unknown" :=
  (quoteType_total_three_outcomes (GoSlice.ofList [3, 0])).2.2.2.1 (by decide)

/-- C2: the scope check of `requireAuth` is exact-token matching: it passes
iff the required scope is empty or some element of the credential's scope
split on ',' equals the required scope after trimming white space from the
element; "verify,admin" satisfies "admin", "administrator" does not (nor does
a different case or a wildcard), and an empty required scope passes for
every scope. -/
theorem scopeCheck_exact_token (requiredScope scope : String) :
    (scopeCheck requiredScope scope = true ↔
      (requiredScope = "" ∨ ∃ e ∈ Split scope ',', TrimSpace e = requiredScope)) ∧
    scopeCheck "" scope = true ∧
    scopeCheck "admin" "verify,admin" = true ∧
    scopeCheck "admin" "administrator" = false ∧
    scopeCheck "admin" "Admin" = false ∧
    scopeCheck "admin" "*" = false ∧
    scopeCheck "admin" "verify, admin " = true := by
  refine ⟨?_, by simp [scopeCheck], by decide, by decide, by decide, by decide, by decide⟩
  by_cases h : requiredScope = ""
  · simp [scopeCheck, h]
  · simp [scopeCheck, h, scopeFound_iff]

/-- C3 (the code at the failing input): a token that `ValidateAPIKey` accepts
and whose claims carry no `exp`, with the required scope present, makes
`requireAuth` panic while it evaluates `claims.ExpiresAt.Time` for the log
line: the wrapped handler is not called and no response is written. -/
theorem requireAuth_panics_without_expiry (keys : KeyMaterial) (now : Time)
    (fmtTime : Int → String) (next : Request → List Event) :
    ValidateAPIKey noExpiryLib keys now "h.p.s" =
      .ok { Subject := "acme", Scope := "admin" } ∧
    scopeCheck "admin" "admin" = true ∧
    requireAuth (ValidateAPIKey noExpiryLib keys now) fmtTime next "admin"
        { Method := "POST", Authorization := "Bearer h.p.s" } =
      [Event.panic "runtime error: invalid memory address or nil pointer dereference"] := by
  refine ⟨rfl, by decide, ?_⟩
  have hp : HasPrefix "Bearer h.p.s" "Bearer " = true := by decide
  have ht : TrimPrefix "Bearer h.p.s" "Bearer " = "h.p.s" := by decide
  have hv : ValidateAPIKey noExpiryLib keys now "h.p.s" =
      .ok { Subject := "acme", Scope := "admin" } := rfl
  have hs : scopeCheck "admin" "admin" = true := by decide
  simp [requireAuth, hp, ht, hv, hs]

/-- C4 (the code on rejected evidence): when the TDX trust check returns an
error `verifyTDX` answers 200 with `success = false` and status
"VERIFICATION_FAILED"; when the external tool returns an error `verifySGX`
answers with the same body shape but with status code 400. -/
theorem rejected_evidence_status {Q : Type} (x : Collaborators Q) (raw : GoSlice) :
    (∀ q err, x.quoteToProto raw = .ok q → x.tdxQuote q = some err →
      verifyTDX x raw =
        [Event.call .QuoteToProto, Event.call .TdxQuote,
         Event.sendJSON 200
           { Success := false, Status := "VERIFICATION_FAILED",
             Error := "TDX quote verification failed: " ++ err }]) ∧
    (∀ name output err, x.createTemp = .ok name → x.write name raw.bytes = none →
      x.combinedOutput name raw.bytes = (output, some err) →
      verifySGX x raw =
        [Event.call .CreateTemp, Event.call (.Write name), Event.call (.Close name),
         Event.call (.CombinedOutput name),
         Event.log ("SGX verification tool failed: " ++ err ++ ", Output: " ++ output),
         Event.sendJSON 400
           { Success := false, Status := "VERIFICATION_FAILED",
             Error := "SGX verification failed: " ++ output },
         Event.call (.Remove name)]) := by
  constructor
  · intro q err h1 h2
    simp [verifyTDX, h1, h2, sendJSON]
  · intro name output err h1 h2 h3
    simp [verifySGX, h1, h2, h3, sendJSON]

/-- C4, at collaborators whose verifiers reject: 200 on the TDX path, 400 on
the SGX path. -/
theorem rejected_evidence_status_witness :
    verifyTDX rejectingCollaborators (GoSlice.ofList [4, 0, 0, 0]) =
      [Event.call .QuoteToProto, Event.call .TdxQuote,
       Event.sendJSON 200
         { Success := false, Status := "VERIFICATION_FAILED",
           Error := "TDX quote verification failed: signature mismatch" }] ∧
    verifySGX rejectingCollaborators (GoSlice.ofList [3, 0, 0, 0]) =
      [Event.call .CreateTemp, Event.call (.Write "/tmp/quote-1.dat"),
       Event.call (.Close "/tmp/quote-1.dat"),
       Event.call (.CombinedOutput "/tmp/quote-1.dat"),
       Event.log "SGX verification tool failed: exit status 1, Output: quote rejected",
       Event.sendJSON 400
         { Success := false, Status := "VERIFICATION_FAILED",
           Error := "SGX verification failed: quote rejected" },
       Event.call (.Remove "/tmp/quote-1.dat")] :=
  ⟨(rejected_evidence_status rejectingCollaborators (GoSlice.ofList [4, 0, 0, 0])).1
      [4, 0, 0, 0] "signature mismatch" rfl rfl,
   (rejected_evidence_status rejectingCollaborators (GoSlice.ofList [3, 0, 0, 0])).2
      "/tmp/quote-1.dat" "quote rejected" "exit status 1" rfl rfl rfl⟩

/-- C5 (the code at the failing input): for the quote "\n" the base64 decoder
returns an empty slice of capacity 0; it classifies as "unknown", and
`verifyHandler` panics at `quoteRaw[:2]` after the log line, without writing
a response. -/
theorem verifyHandler_short_quote_panics {Q : Type} (x : Collaborators Q) :
    quoteType ⟨[], 0, Nat.le_refl 0⟩ = some "unknown" ∧
    verifyHandler
      { x with
        decodeVerifyRequest := fun _ => .ok { Quote := "\n" },
        base64Decode := fun _ => .ok ⟨[], 0, Nat.le_refl 0⟩ }
      { Method := "POST", Body := "\x7b\"quote\":\"\\n\"\x7d" } =
    [Event.log "Received unknown quote (0 bytes)",
     Event.panic "runtime error: slice bounds out of range [:2]"] :=
  ⟨rfl, rfl⟩

/-- C6: when the structured decode `QuoteToProto` of evidence classified "tdx"
fails, `verifyTDX` writes exactly one response, with status 400,
`success = false`, no status tag and the error "Failed to parse TDX quote: "
followed by the decoder's error; the trust check `TdxQuote` is not called;
and `verifyHandler` reaches `verifyTDX` with that evidence. -/
theorem verifyTDX_malformed_is_client_error {Q : Type} (x : Collaborators Q)
    (raw : GoSlice) (err : String)
    (hq : quoteType raw = some "tdx") (hd : x.quoteToProto raw = .error err) :
    verifyTDX x raw =
      [Event.call .QuoteToProto,
       Event.sendJSON 400
         { Success := false, Error := "Failed to parse TDX quote: " ++ err }] ∧
    ((verifyTDX x raw).filter Event.isResponse).length = 1 ∧
    (∀ st resp, Event.sendJSON st resp ∈ verifyTDX x raw →
      st = 400 ∧ resp.Success = false ∧ resp.Status = "" ∧
      resp.Error = "Failed to parse TDX quote: " ++ err) ∧
    Event.call .TdxQuote ∉ verifyTDX x raw ∧
    (∀ r req, r.Method = "POST" → x.decodeVerifyRequest r.Body = .ok req →
      req.Quote ≠ "" → x.base64Decode req.Quote = .ok raw →
      verifyHandler x r =
        Event.log ("Received tdx quote (" ++ toString raw.len ++ " bytes)") ::
          verifyTDX x raw) := by
  have h : verifyTDX x raw =
      [Event.call .QuoteToProto,
       Event.sendJSON 400
         { Success := false, Error := "Failed to parse TDX quote: " ++ err }] := by
    simp [verifyTDX, hd, sendJSON]
  refine ⟨h, ?_, ?_, ?_, ?_⟩
  · rw [h]; simp [Event.isResponse]
  · intro st resp hmem
    rw [h] at hmem
    simp at hmem
    obtain ⟨rfl, rfl⟩ := hmem
    exact ⟨rfl, rfl, rfl, rfl⟩
  · rw [h]; simp
  · intro r req hm hj hne hb
    simp [verifyHandler, hm, hj, hne, hb, hq]

/-- C6, at four bytes 04 00 00 00 and a decoder that fails. -/
theorem verifyTDX_malformed_witness :
    verifyTDX demoCollaborators (⟨[4, 0, 0, 0, 0, 0], 4, by decide⟩) =
      [Event.call .QuoteToProto,
       Event.sendJSON 400
         { Success := false,
           Error := "Failed to parse TDX quote: unable to determine quote format" }] :=
  (verifyTDX_malformed_is_client_error demoCollaborators (⟨[4, 0, 0, 0, 0, 0], 4, by decide⟩)
    "unable to determine quote format" (by decide) rfl).1

/-- C7 as amended: for every subject and scope that are valid UTF-8 (the
encodings of Unicode strings), with a wire format that returns claims
unchanged and a matching Ed25519 key pair, `IssueAPIKey` returns a token;
validated at an instant `t` before `now + validity` rounded down to a whole
second the token is accepted and the claims returned carry that subject and
that scope; validated at or after that instant it is rejected as expired.
Validated at the issuing instant it is accepted for every validity of at least
one second. -/
theorem issue_validate_round_trip {W : Type} (lib : JwtLib W) (keys : KeyMaterial)
    (now : Time) (subject scope : String) (validity : Duration)
    (hl : lib.Lawful) (hk : MatchingPair lib keys) :
    ∃ tok,
      OnBytes.IssueAPIKey lib keys now (utf8Encode subject) (utf8Encode scope) validity =
        .ok tok ∧
      (∀ t, t < NewNumericDate (now + validity) →
        ∃ claims, ValidateAPIKey lib keys t tok = .ok claims ∧
          claims.Subject = subject ∧ claims.Scope = scope) ∧
      (∀ t, NewNumericDate (now + validity) ≤ t →
        ValidateAPIKey lib keys t tok =
          .error "token has invalid claims: token is expired") ∧
      (Second ≤ validity → now < NewNumericDate (now + validity)) := by
  obtain ⟨tok, hi, _⟩ :=
    issue_then_validate lib keys now now (utf8Encode subject) (utf8Encode scope)
      validity hl hk
  refine ⟨tok, hi, ?_, ?_, now_lt_expiry now validity⟩
  · intro t ht
    obtain ⟨tok2, hi2, hv2⟩ :=
      issue_then_validate lib keys now t (utf8Encode subject) (utf8Encode scope)
        validity hl hk
    have htok : tok2 = tok := by
      rw [hi] at hi2
      exact (Except.ok.inj hi2).symm
    subst htok
    rw [if_pos ht] at hv2
    refine ⟨_, hv2, ?_, ?_⟩
    · simp [OnBytes.issuedClaims, GoClaims.onWire, jsonText_utf8Encode]
    · simp [OnBytes.issuedClaims, GoClaims.onWire, jsonText_utf8Encode]
  · intro t ht
    obtain ⟨tok2, hi2, hv2⟩ :=
      issue_then_validate lib keys now t (utf8Encode subject) (utf8Encode scope)
        validity hl hk
    have htok : tok2 = tok := by
      rw [hi] at hi2
      exact (Except.ok.inj hi2).symm
    subst htok
    rw [if_neg (not_lt.mpr ht)] at hv2
    exact hv2

/-- C7 as amended, at subject "acme", scope "verify", one day of validity,
validated at the issuing instant. -/
theorem issue_validate_round_trip_witness :
    ∃ tok claims,
      OnBytes.IssueAPIKey demoLib demoKeys 1793534400500000000 (utf8Encode "acme")
        (utf8Encode "verify") (24 * Hour) = .ok tok ∧
      ValidateAPIKey demoLib demoKeys 1793534400500000000 tok = .ok claims ∧
      claims.Subject = "acme" ∧ claims.Scope = "verify" := by
  obtain ⟨tok, hi, hv, _, hnow⟩ :=
    issue_validate_round_trip demoLib demoKeys 1793534400500000000 "acme" "verify"
      (24 * Hour) demoLib_lawful demoKeys_matching
  obtain ⟨claims, h1, h2, h3⟩ := hv 1793534400500000000 (hnow (by decide))
  exact ⟨tok, claims, hi, h1, h2, h3⟩

/-- C7 as stated fails, in two ways. A credential issued with the positive
validity of one nanosecond at an instant half a second past a whole second
expires at that whole second, so validating it at the issuing instant returns
the error "token is expired". And a credential issued for the subject that is
the single byte FF, which is not valid UTF-8, with one day of validity is
accepted but the subject returned is U+FFFD (bytes EF BF BD), not the subject
given. -/
theorem round_trip_fails :
    demoLib.Lawful ∧ MatchingPair demoLib demoKeys ∧
    ((0 : Duration) < 1 ∧
      ∃ tok,
        OnBytes.IssueAPIKey demoLib demoKeys 1793534400500000000 (utf8Encode "acme")
          (utf8Encode "verify") 1 = .ok tok ∧
        ValidateAPIKey demoLib demoKeys 1793534400500000000 tok =
          .error "token has invalid claims: token is expired") ∧
    ((0 : Duration) < 24 * Hour ∧
      ∃ tok claims,
        OnBytes.IssueAPIKey demoLib demoKeys 1793534400500000000 [byte 0xFF]
          (utf8Encode "verify") (24 * Hour) = .ok tok ∧
        ValidateAPIKey demoLib demoKeys 1793534400500000000 tok = .ok claims ∧
        utf8Encode claims.Subject = [byte 0xEF, byte 0xBF, byte 0xBD] ∧
        utf8Encode claims.Subject ≠ [byte 0xFF]) := by
  refine ⟨demoLib_lawful, demoKeys_matching, ⟨by decide, _, rfl, by decide⟩,
    ⟨by decide, _, _, rfl, rfl, by decide, by decide⟩⟩

/-- C8: the key-lookup callback returns the verifying key iff the token's
signing method is Ed25519 and returns the error "unexpected signing method"
for every other method; so for every token string whose declared algorithm
is not "EdDSA", `ValidateAPIKey` returns an error whatever the claims and
signature are, and the result is the same for every signature verification
function: the rejection does not depend on verifying a signature. -/
theorem ValidateAPIKey_pins_EdDSA (keys : KeyMaterial) :
    (∀ t : Token, (keyFunc keys t = .ok keys.verifyingKey ↔ t.Method = .Ed25519) ∧
      (∀ k, keyFunc keys t = .ok k → k = keys.verifyingKey) ∧
      (t.Method ≠ .Ed25519 →
        keyFunc keys t = .error ("unexpected signing method: " ++ t.alg))) ∧
    (∀ (W : Type) (lib : JwtLib W) (now : Time) (tok : W),
      (∀ c, lib.split tok = .ok c → c.alg ≠ some "EdDSA") →
      (∃ e, ValidateAPIKey lib keys now tok = .error e) ∧
      (∀ v, ValidateAPIKey { lib with verify := v } keys now tok =
        ValidateAPIKey lib keys now tok)) := by
  refine ⟨fun t => keyFunc_iff keys t, ?_⟩
  intro W lib now tok halg
  cases hs : lib.split tok with
  | error e => simp [ValidateAPIKey, ParseWithClaims, hs]
  | ok c =>
    have hne := halg c hs
    cases ha : c.alg with
    | none => simp [ValidateAPIKey, ParseWithClaims, hs, ha]
    | some alg =>
      have hne2 : alg ≠ "EdDSA" := by
        intro h; apply hne; rw [ha, h]
      cases hg : GetSigningMethod alg with
      | none => simp [ValidateAPIKey, ParseWithClaims, hs, ha, hg]
      | some method =>
        have hm : method ≠ .Ed25519 := by
          intro h
          rw [h] at hg
          exact hne2 ((GetSigningMethod_ed25519 alg).mp hg)
        cases hsig : c.signature with
        | none => simp [ValidateAPIKey, ParseWithClaims, hs, ha, hg, hsig]
        | some sig =>
          cases method <;>
            first
            | exact absurd rfl hm
            | simp [ValidateAPIKey, ParseWithClaims, hs, ha, hg, hsig, keyFunc]

/-- C8, at an HS256 token with acceptable claims in a library whose signature
verification accepts everything: rejected by the key-lookup callback. -/
theorem ValidateAPIKey_pins_EdDSA_witness :
    (∃ e, ValidateAPIKey hs256Lib demoKeys 1793534400500000000 "h.p.s" = .error e) ∧
    ValidateAPIKey hs256Lib demoKeys 1793534400500000000 "h.p.s" =
      .error ("token is unverifiable: error while executing keyfunc: " ++
              "unexpected signing method: HS256") :=
  ⟨((ValidateAPIKey_pins_EdDSA demoKeys).2 String hs256Lib 1793534400500000000 "h.p.s"
      (by intro c hc; cases hc; decide)).1, by decide⟩

/-- C9 (the code at the failing input): for `days_valid = 106752` the int64
product `days * 24 * time.Hour` wraps around to a negative duration;
`issueHandler` still calls `IssueAPIKey` with it and answers 200 with the
token, whose `exp` lies before its `iat`. -/
theorem issueHandler_days_overflow {Q : Type} (x : Collaborators Q)
    (lib : JwtLib String) (keys : KeyMaterial) (now now2 : Time) :
    validityOfDays 106752 = -9223371273709551616 ∧
    issueHandler
        { x with
          decodeIssueRequest := fun _ => .ok { Subject := "acme", DaysValid := 106752 } }
        lib keys now now2
        { Method := "POST", Body := "\x7b\"subject\":\"acme\",\"days_valid\":106752\x7d" } =
      (match IssueAPIKey lib keys now "acme" "verify" (-9223371273709551616) with
       | .error _ =>
         [Event.sendJSON 500 { Success := false, Error := "Failed to issue token" }]
       | .ok token =>
         [Event.issued 200
           { Token := token, Subject := "acme", Scope := "verify",
             Expires := x.formatRFC3339 (now2 + -9223371273709551616) }]) ∧
    (∃ e i,
      (issuedClaims now "acme" "verify" (validityOfDays 106752)).ExpiresAt = some e ∧
      (issuedClaims now "acme" "verify" (validityOfDays 106752)).IssuedAt = some i ∧
      e < i) := by
  refine ⟨by decide, rfl, ?_⟩
  refine ⟨_, _, rfl, rfl, ?_⟩
  exact NewNumericDate_lt now _ (by decide)

/-- C10: `verifyHandler` answers with `success = true` iff the request is a
POST whose body decodes to a non-empty quote that is valid base64, the decoded
bytes classify as "tdx" or "sgx", and the verifier of that family accepts
(tdx: decode succeeds and the trust check returns no error; sgx: the temporary
file is created and written and the external tool returns no error); every
response with `success = true` has status 200 and status tag "OK"; in every
other case every JSON response written has `success = false`. -/
theorem verifyHandler_positive_verdict_sound {Q : Type} (x : Collaborators Q)
    (r : Request) :
    (answersSuccess (verifyHandler x r) ↔
      ∃ req raw, r.Method = "POST" ∧ x.decodeVerifyRequest r.Body = .ok req ∧
        req.Quote ≠ "" ∧ x.base64Decode req.Quote = .ok raw ∧ verifierAccepts x raw) ∧
    (∀ st resp, Event.sendJSON st resp ∈ verifyHandler x r → resp.Success = true →
      st = 200 ∧ resp.Status = "OK") ∧
    (¬ (∃ req raw, r.Method = "POST" ∧ x.decodeVerifyRequest r.Body = .ok req ∧
        req.Quote ≠ "" ∧ x.base64Decode req.Quote = .ok raw ∧ verifierAccepts x raw) →
      ∀ st resp, Event.sendJSON st resp ∈ verifyHandler x r → resp.Success = false) := by
  -- soundness: a success response forces every condition
  have sound : ∀ st resp, Event.sendJSON st resp ∈ verifyHandler x r →
      resp.Success = true →
      (∃ req raw, r.Method = "POST" ∧ x.decodeVerifyRequest r.Body = .ok req ∧
        req.Quote ≠ "" ∧ x.base64Decode req.Quote = .ok raw ∧ verifierAccepts x raw) ∧
      st = 200 ∧ resp.Status = "OK" := by
    intro st resp hmem hs
    unfold verifyHandler at hmem
    by_cases hm : r.Method = "POST"
    swap
    · simp [hm] at hmem
    cases hj : x.decodeVerifyRequest r.Body with
    | error e =>
      simp [hm, hj, sendJSON] at hmem
      obtain ⟨-, rfl⟩ := hmem
      simp at hs
    | ok req =>
      by_cases hne : req.Quote = ""
      · simp [hm, hj, hne, sendJSON] at hmem
        obtain ⟨-, rfl⟩ := hmem
        simp at hs
      cases hb : x.base64Decode req.Quote with
      | error e =>
        simp [hm, hj, hne, hb, sendJSON] at hmem
        obtain ⟨-, rfl⟩ := hmem
        simp at hs
      | ok raw =>
        rcases quoteType_outcomes raw with hq | hq | hq
        · simp [hm, hj, hne, hb, hq] at hmem
          obtain ⟨h1, h2, h3⟩ := verifySGX_success x raw st resp hmem hs
          exact ⟨⟨req, raw, hm, rfl, hne, hb, Or.inr ⟨hq, h1⟩⟩, h2, h3⟩
        · simp [hm, hj, hne, hb, hq] at hmem
          obtain ⟨h1, h2, h3⟩ := verifyTDX_success x raw st resp hmem hs
          exact ⟨⟨req, raw, hm, rfl, hne, hb, Or.inl ⟨hq, h1⟩⟩, h2, h3⟩
        · have hh := verifyHandler_unknown x r req raw hm hj hne hb hq
          unfold verifyHandler at hh
          rw [hh] at hmem
          split_ifs at hmem
          · simp at hmem
            obtain ⟨-, rfl⟩ := hmem
            simp at hs
          · simp at hmem
  refine ⟨⟨?_, ?_⟩, ?_, ?_⟩
  · rintro ⟨st, resp, hmem, hs⟩
    exact (sound st resp hmem hs).1
  · rintro ⟨req, raw, hm, hj, hne, hb, hacc⟩
    rcases hacc with ⟨hq, q, h1, h2⟩ | ⟨hq, name, h1, h2, h3⟩
    · refine ⟨200, VerifyResponse.mk true "OK" "" []
        "TDX quote verified (signature + certificate chain)" "", ?_, rfl⟩
      simp [verifyHandler, hm, hj, hne, hb, hq, verifyTDX_accepts x raw q h1 h2]
    · refine ⟨200, VerifyResponse.mk true "OK" "" [] "SGX quote verified via DCAP" "", ?_, rfl⟩
      simp [verifyHandler, hm, hj, hne, hb, hq, verifySGX_accepts x raw name h1 h2 h3]
  · intro st resp hmem hs
    exact (sound st resp hmem hs).2
  · intro hno st resp hmem
    cases hS : resp.Success with
    | false => rfl
    | true => exact absurd (sound st resp hmem hS).1 hno

/-- C10, at a POST whose evidence classifies as "tdx" and whose verifier
accepts. -/
theorem verifyHandler_positive_verdict_sound_witness :
    answersSuccess
      (verifyHandler acceptingCollaborators { Method := "POST", Body := "BAAAAA==" }) :=
  (verifyHandler_positive_verdict_sound acceptingCollaborators
      { Method := "POST", Body := "BAAAAA==" }).1.mpr
    ⟨{ Quote := "BAAAAA==" }, ⟨[4, 0, 0, 0, 0, 0], 4, by decide⟩, rfl, rfl, by decide, rfl,
      Or.inl ⟨by decide, [4, 0, 0, 0], rfl, rfl⟩⟩

end AttestationServer
